import Mathlib

/-!
Verification of the pod-analyzer restart-detection and notification pipeline
(`main.go`), shallowly embedded in Lean 4.

Modelling conventions:
* Go `time.Time` values are modelled as `Int` (seconds since an epoch);
  `a.After(b)` becomes `b < a`, and `t.Add(-1*time.Minute)` becomes `t - 60`.
* Go strings are Lean `String`s; Go's byte-indexed slicing `s[:limit]` is
  modelled as taking the first `limit` characters of the string's data.
* The Go map `notifiedRestarts : map[string]time.Time` is modelled as the
  function type `String → Option Int`.
* Fallible external calls (Kubernetes API, HTTP) are modelled as
  `Except Unit`-valued inputs; JSON bodies decoded into
  `map[string]interface{}` are modelled as `Option (String → Option JValue)`
  (`none` = `json.Unmarshal` returned an error).
* The `go analyzePod(...)` dispatches performed by the polling loop are
  recorded as a list of `Dispatch` values; Slack posts performed by
  `analyzePod` are recorded as a list of `SlackPayload` values.
-/

/-- Compiled-in constant `CHECK_INTERVAL = 30 * time.Second`, in seconds. -/
def CHECK_INTERVAL : Nat := 30

/-- Compiled-in constant `LOG_LINES = 50`. -/
def LOG_LINES : Nat := 50

/-- Compiled-in constant `OLLAMA_MODEL`. -/
def OLLAMA_MODEL : String := "llama3"

/-- Compiled-in constant `SLACK_CHANNEL`. -/
def SLACK_CHANNEL : String := "#all-vishal-personal"

/-- The dedup map `notifiedRestarts : map[string]time.Time`. -/
def DedupMap : Type := String → Option Int

/-- The empty map the process starts with (`make(map[string]time.Time)`). -/
def emptyDedup : DedupMap := fun _ => none

/-- One `go analyzePod(...)` dispatch: the dedup key `namespace/name` and the
pod start time passed to the analysis task. -/
structure Dispatch where
  key : String
  startTime : Int
deriving DecidableEq

/-- One container status, as far as the detector reads it
(`cs.RestartCount`). -/
structure ContainerStatus where
  restartCount : Nat
deriving DecidableEq

/-- One listed pod, as far as the detector reads it: identity, the pod-level
(nullable) `Status.StartTime`, and its container statuses. -/
structure Pod where
  namespaceName : String
  name : String
  startTime : Option Int
  containerStatuses : List ContainerStatus
deriving DecidableEq

/-- The dedup key `fmt.Sprintf("%s/%s", pod.Namespace, pod.Name)`. -/
def podKey (p : Pod) : String := p.namespaceName ++ "/" ++ p.name

/-- The dedup check and update of `main.go` lines 64–68: if the key is absent
or the observed start time is strictly later (`restartTime.After(last)`), the
map is updated to the new start time and an analysis task is dispatched;
otherwise nothing happens. -/
def dedupCheck (st : DedupMap) (key : String) (restartTime : Int) :
    DedupMap × Option Dispatch :=
  match st key with
  | none =>
      (fun k => if k = key then some restartTime else st k,
       some ⟨key, restartTime⟩)
  | some last =>
      if last < restartTime then
        (fun k => if k = key then some restartTime else st k,
         some ⟨key, restartTime⟩)
      else
        (st, none)

/-- The body of the inner loop of `main.go` lines 59–70 for one container
status: the dedup check runs only when `cs.RestartCount > 0` and
`pod.Status.StartTime != nil`. -/
def processContainer (st : DedupMap) (p : Pod) (cs : ContainerStatus) :
    DedupMap × Option Dispatch :=
  if 0 < cs.restartCount then
    match p.startTime with
    | some t => dedupCheck st (podKey p) t
    | none => (st, none)
  else
    (st, none)

/-- The inner loop over `pod.Status.ContainerStatuses`, threading the dedup
map and collecting dispatches in order. -/
def processContainers (p : Pod) : List ContainerStatus → DedupMap →
    DedupMap × List Dispatch
  | [], st => (st, [])
  | cs :: rest, st =>
      let r := processContainer st p cs
      let r' := processContainers p rest r.1
      (r'.1, r.2.toList ++ r'.2)

/-- The loop over `pods.Items` of `main.go` lines 58–71. -/
def processPods : List Pod → DedupMap → DedupMap × List Dispatch
  | [], st => (st, [])
  | p :: rest, st =>
      let r := processContainers p p.containerStatuses st
      let r' := processPods rest r.1
      (r'.1, r.2 ++ r'.2)

/-- One iteration of the polling `for` loop (`main.go` lines 51–73): the
listing result is either an error or a pod list.  The third component records
the sleep performed at the end of the iteration: on a listing error the code
logs and `continue`s, which jumps back to the top of the loop and skips
`time.Sleep(CHECK_INTERVAL)` (`none`); on success the poll is processed and
the loop sleeps for `CHECK_INTERVAL` (`some CHECK_INTERVAL`). -/
def loopIteration (st : DedupMap) (listing : Except Unit (List Pod)) :
    DedupMap × List Dispatch × Option Nat :=
  match listing with
  | .error _ => (st, [], none)
  | .ok pods =>
      let r := processPods pods st
      (r.1, r.2, some CHECK_INTERVAL)

/-- Runs the polling loop over a finite sequence of listing results,
accumulating all dispatches in order.  A listing error leaves the dedup map
untouched and contributes no dispatches. -/
def runPolls : List (Except Unit (List Pod)) → DedupMap →
    DedupMap × List Dispatch
  | [], st => (st, [])
  | poll :: rest, st =>
      let r := loopIteration st poll
      let r' := runPolls rest r.1
      (r'.1, r.2.1 ++ r'.2)

/-- The whole detector run from process start (empty map). -/
def runDetector (polls : List (Except Unit (List Pod))) :
    DedupMap × List Dispatch :=
  runPolls polls emptyDedup

/-- Go's `strings.TrimSpace`: removes leading and trailing whitespace
characters from both ends of the string. -/
def trimSpace (s : String) : String :=
  String.mk (((s.data.dropWhile Char.isWhitespace).reverse.dropWhile
    Char.isWhitespace).reverse)

/-- Go's `strings.HasPrefix s p`: `p` is an initial segment of `s`. -/
def strStartsWith (s p : String) : Bool := p.data.isPrefixOf s.data

/-- Go's `strings.Split(s, "\n")`, accumulating the current line in reverse:
yields the (possibly empty) segments of `s` between newline characters. -/
def splitLinesAux : List Char → List Char → List String
  | [], acc => [String.mk acc.reverse]
  | c :: cs, acc =>
      if c = '\n' then String.mk acc.reverse :: splitLinesAux cs []
      else splitLinesAux cs (c :: acc)

/-- Go's `strings.Split(s, "\n")`. -/
def splitLines (s : String) : List String := splitLinesAux s.data []

/-- Go's `strings.Join(lines, "\n")`. -/
def joinLines : List String → String
  | [] => ""
  | [l] => l
  | l :: ls => l ++ "\n" ++ joinLines ls

/-- The stream of `(key, startTime)` observations one pod contributes to the
inner loop: one per container status with a positive restart count, provided
the pod has a start time. -/
def podObs (p : Pod) : List (String × Int) :=
  p.containerStatuses.filterMap (fun cs =>
    if 0 < cs.restartCount then p.startTime.map (fun t => (podKey p, t))
    else none)

/-- The observations one poll iteration feeds to the dedup check: nothing on
a listing error, the concatenated pod streams otherwise. -/
def pollObs : Except Unit (List Pod) → List (String × Int)
  | .error _ => []
  | .ok pods => pods.flatMap podObs

/-- The dedup state machine run over a flat stream of observations. -/
def runObs : List (String × Int) → DedupMap → DedupMap × List Dispatch
  | [], st => (st, [])
  | (k, t) :: rest, st =>
      let r := dedupCheck st k t
      let r' := runObs rest r.1
      (r'.1, r.2.toList ++ r'.2)

/-- A cluster event, as far as `analyzePod` and the formatters read it:
`Reason`, `Message`, `InvolvedObject.Name` and `LastTimestamp`. -/
structure KEvent where
  reason : String
  message : String
  involvedName : String
  lastTimestamp : Int
deriving DecidableEq

/-- The event filter of `main.go` lines 91–96: the loop appends exactly those
events whose involved-object name equals the pod name and whose
`LastTimestamp` is strictly after `restartTime.Add(-1*time.Minute)`. -/
def filterEvents (items : List KEvent) (podName : String)
    (restartTime : Int) : List KEvent :=
  items.foldl
    (fun acc e =>
      if e.involvedName = podName ∧ restartTime - 60 < e.lastTimestamp then
        acc ++ [e]
      else acc)
    []

/-- `formatEvents`: joins `"{reason}: {message}"` lines with newlines. -/
def formatEvents (events : List KEvent) : String :=
  joinLines (events.map (fun e => e.reason ++ ": " ++ e.message))

/-- `truncate` (`main.go` lines 243–248): the string unchanged when within the
limit, else its first `limit` characters followed by `"... (truncated)"`.
Go measures `len(s)` in bytes and slices `s[:limit]` by byte position; the
embedding measures in characters, the same quantity on ASCII text. -/
def truncate (s : String) (limit : Nat) : String :=
  if s.length ≤ limit then s
  else String.mk (s.data.take limit) ++ "... (truncated)"

/-- The command test of `formatCodeBlocks` (`main.go` line 223), applied to
the already-trimmed line: it starts with `"kubectl "` or `"bash "`. -/
def isCommandLine (t : String) : Bool :=
  strStartsWith t "kubectl " || strStartsWith t "bash "

/-- The line loop of `formatCodeBlocks` (`main.go` lines 221–239), carrying
the `inCodeBlock` flag: a recognized line first opens a fence if none is open
and is emitted trimmed; a non-recognized line first closes an open fence and
is emitted trimmed; a fence still open at end of input is closed. -/
def formatLines : List String → Bool → List String
  | [], inCodeBlock => if inCodeBlock then ["```"] else []
  | line :: rest, inCodeBlock =>
      let trimmed := trimSpace line
      if isCommandLine trimmed then
        if inCodeBlock then trimmed :: formatLines rest true
        else "```bash" :: trimmed :: formatLines rest true
      else
        if inCodeBlock then "```" :: trimmed :: formatLines rest false
        else trimmed :: formatLines rest false

/-- `formatCodeBlocks`: split on newlines, run the line loop starting outside
any fence, join with newlines. -/
def formatCodeBlocks (text : String) : String :=
  joinLines (formatLines (splitLines text) false)

/-- JSON values, as Go's `encoding/json` decodes them into `interface{}`.
The numeric payload is irrelevant to the code under verification (only the
string/non-string distinction is ever inspected), so numbers carry an `Int`. -/
inductive JValue where
  | str : String → JValue
  | num : Int → JValue
  | bool : Bool → JValue
  | null : JValue
  | arr : List JValue → JValue
  | obj : List (String × JValue) → JValue

/-- A decoded `map[string]interface{}` body: `none` models
`json.Unmarshal` returning an error (undecodable body), `some f` a decoded
object with field lookup `f`. -/
def DecodedBody : Type := Option (String → Option JValue)

/-- The response handling of `callOllama` (`main.go` lines 144–152): an
unmarshal error is returned as an error; a decoded object yields its
`response` field when that field is a string, and the literal fallback
`"No response from model"` otherwise. -/
def handleOllamaBody (decoded : DecodedBody) : Except Unit String :=
  match decoded with
  | none => .error ()
  | some fields =>
      match fields "response" with
      | some (JValue.str s) => .ok s
      | _ => .ok "No response from model"

/-- The serialization of events into prompt lines
(`main.go` lines 113–117): `"- {reason}: {message}"` joined by newlines. -/
def ollamaEventStr (events : List KEvent) : String :=
  joinLines (events.map (fun e => "- " ++ e.reason ++ ": " ++ e.message))

/-- The prompt built by `callOllama` (`main.go` line 119). -/
def ollamaPrompt (logs : String) (events : List KEvent) : String :=
  "Here are the logs and events from a Kubernetes pod. Help me identify the issue and suggest a fix.\n\nEvents:\n"
    ++ ollamaEventStr events ++ "\n\nLogs:\n" ++ logs

/-- The outcome of the HTTP round trip in `callOllama`: `none` models a
transport or body-read failure (each returned as an error), `some body` a
received body together with its decode outcome. -/
def OllamaOutcome : Type := Option DecodedBody

/-- `callOllama`'s result as a function of the HTTP outcome: transport and
read failures propagate as errors; otherwise the body handling applies. -/
def callOllamaResult (outcome : OllamaOutcome) : Except Unit String :=
  match outcome with
  | none => .error ()
  | some decoded => handleOllamaBody decoded

/-- A `chat.postMessage` payload, as built by `sendMainSlackMessage`
(no `thread_ts`) and `sendSlackThread` (with `thread_ts`). -/
structure SlackPayload where
  channel : String
  text : String
  thread_ts : Option String
deriving DecidableEq

/-- The summary text of `sendMainSlackMessage` (`main.go` lines 156–159).
`formatRestartTime` abstracts Go's `restartTime.Format("2006-01-02 15:04:05")`
calendar rendering, which no verified property inspects. -/
def formatRestartTime (restartTime : Int) : String := toString restartTime

/-- The fixed-shape summary block. -/
def summaryText (podName namespaceName : String) (restartTime : Int) :
    String :=
  "*🚨 Pod Restart Detected!*\n" ++
    "> *Pod:* `" ++ podName ++ "`\n" ++
    "> *Namespace:* `" ++ namespaceName ++ "`\n" ++
    "> *Restart Time:* `" ++ formatRestartTime restartTime ++ "`"

/-- The parent-message payload built by `sendMainSlackMessage`. -/
def mainPayload (podName namespaceName : String) (restartTime : Int) :
    SlackPayload :=
  ⟨SLACK_CHANNEL, summaryText podName namespaceName restartTime, none⟩

/-- The threaded-reply payload built by `sendSlackThread`. -/
def threadPayload (threadTs message : String) : SlackPayload :=
  ⟨SLACK_CHANNEL, message, some threadTs⟩

/-- The external collaborators of one `analyzePod` run, at the interface
boundary the code observes: the log fetch and event listing may fail; the
inference call yields an `OllamaOutcome`; the Slack publisher maps each
posted payload to the message reference it returns (`""` when `postToSlack`
fails for any reason). -/
structure AnalyzeEnv where
  getLogs : Except Unit String
  listEvents : Except Unit (List KEvent)
  ollama : OllamaOutcome
  post : SlackPayload → String

/-- `analyzePod` (`main.go` lines 76–110), as the sequence of Slack payloads
it posts: a log-fetch, event-listing or inference failure abandons the
incident with no posts; otherwise the parent message is posted, and the three
threaded blocks (events, truncated logs, formatted truncated analysis) are
posted only when the parent publish returned a non-empty reference. -/
def analyzePodPosts (env : AnalyzeEnv) (podName namespaceName : String)
    (restartTime : Int) : List SlackPayload :=
  match env.getLogs with
  | .error _ => []
  | .ok logs =>
      match env.listEvents with
      | .error _ => []
      | .ok items =>
          let events := filterEvents items podName restartTime
          match callOllamaResult env.ollama with
          | .error _ => []
          | .ok analysis =>
              let parent := mainPayload podName namespaceName restartTime
              let threadTS := env.post parent
              parent ::
                (if threadTS ≠ "" then
                  [threadPayload threadTS
                      ("📋 *Events:*\n```" ++ formatEvents events ++ "```"),
                   threadPayload threadTS
                      ("📦 *Logs:*\n```" ++ truncate logs 1000 ++ "```"),
                   threadPayload threadTS
                      ("🤖 *Analysis:*\n" ++
                        formatCodeBlocks (truncate analysis 3000))]
                else [])

/-! ### Correspondence between the nested loops and the flat observation
stream -/

theorem runObs_append (xs ys : List (String × Int)) (st : DedupMap) :
    runObs (xs ++ ys) st =
      ((runObs ys (runObs xs st).1).1,
       (runObs xs st).2 ++ (runObs ys (runObs xs st).1).2) := by
  induction xs generalizing st with
  | nil => simp [runObs]
  | cons x xs ih =>
      obtain ⟨k, t⟩ := x
      simp [runObs, ih]

theorem processContainers_eq_runObs (p : Pod) (css : List ContainerStatus)
    (st : DedupMap) :
    processContainers p css st =
      runObs (css.filterMap (fun cs =>
        if 0 < cs.restartCount then p.startTime.map (fun t => (podKey p, t))
        else none)) st := by
  induction css generalizing st with
  | nil => simp [processContainers, runObs]
  | cons cs css ih =>
      by_cases h : 0 < cs.restartCount
      · cases hs : p.startTime with
        | none =>
            simp [processContainers, processContainer, h, hs,
              List.filterMap_cons, ih]
        | some t =>
            simp [processContainers, processContainer, h, hs,
              List.filterMap_cons, ih, runObs]
      · simp [processContainers, processContainer, h, List.filterMap_cons, ih]

theorem processPods_eq_runObs (pods : List Pod) (st : DedupMap) :
    processPods pods st = runObs (pods.flatMap podObs) st := by
  induction pods generalizing st with
  | nil => simp [processPods, runObs]
  | cons p pods ih =>
      simp only [processPods, List.flatMap_cons, runObs_append,
        processContainers_eq_runObs, podObs, ih]

theorem runPolls_eq_runObs (polls : List (Except Unit (List Pod)))
    (st : DedupMap) :
    runPolls polls st = runObs (polls.flatMap pollObs) st := by
  induction polls generalizing st with
  | nil => simp [runPolls, runObs]
  | cons poll polls ih =>
      cases poll with
      | error e =>
          simp [runPolls, loopIteration, pollObs, ih]
      | ok pods =>
          simp only [runPolls, loopIteration, List.flatMap_cons, pollObs,
            runObs_append, processPods_eq_runObs, ih]

/-! ### Invariants of the dedup state machine -/

/-- Dispatch ordering invariant: two dispatches for the same dedup key must
carry strictly increasing start times. -/
def DedupOrdered (d1 d2 : Dispatch) : Prop :=
  d1.key = d2.key → d1.startTime < d2.startTime

theorem dedupCheck_dispatch_eq (st : DedupMap) (k : String) (t : Int)
    (d : Dispatch) (h : (dedupCheck st k t).2 = some d) :
    d = ⟨k, t⟩ ∧ (dedupCheck st k t).1 k = some t ∧
      ∀ v, st k = some v → v < t := by
  unfold dedupCheck at *
  cases hk : st k with
  | none =>
      simp only [hk] at h ⊢
      exact ⟨(Option.some_injective _ h).symm, by simp, by simp⟩
  | some last =>
      simp only [hk] at h ⊢
      by_cases hlt : last < t
      · rw [if_pos hlt] at h ⊢
        refine ⟨(Option.some_injective _ h).symm, by simp, ?_⟩
        intro v hv
        cases hv
        exact hlt
      · rw [if_neg hlt] at h
        cases h

theorem dedupCheck_mono (st : DedupMap) (k : String) (t : Int) (k' : String)
    (v : Int) (hv : st k' = some v) :
    ∃ v', (dedupCheck st k t).1 k' = some v' ∧ v ≤ v' := by
  unfold dedupCheck
  cases hk : st k with
  | none =>
      simp only [hk]
      by_cases he : k' = k
      · rw [he] at hv; rw [hv] at hk; cases hk
      · exact ⟨v, by simp [he, hv], le_refl v⟩
  | some last =>
      simp only [hk]
      by_cases hlt : last < t
      · rw [if_pos hlt]
        by_cases he : k' = k
        · refine ⟨t, by simp [he], ?_⟩
          rw [he, hk] at hv
          cases hv
          exact le_of_lt hlt
        · exact ⟨v, by simp [he, hv], le_refl v⟩
      · rw [if_neg hlt]
        exact ⟨v, hv, le_refl v⟩

theorem runObs_mono (obs : List (String × Int)) (st : DedupMap) (k : String)
    (v : Int) (hv : st k = some v) :
    ∃ v', (runObs obs st).1 k = some v' ∧ v ≤ v' := by
  induction obs generalizing st v with
  | nil => exact ⟨v, hv, le_refl v⟩
  | cons o rest ih =>
      obtain ⟨k', t'⟩ := o
      obtain ⟨v1, hv1, hle1⟩ := dedupCheck_mono st k' t' k v hv
      obtain ⟨v2, hv2, hle2⟩ := ih (dedupCheck st k' t').1 v1 hv1
      exact ⟨v2, by simpa [runObs] using hv2, le_trans hle1 hle2⟩

theorem runObs_lower (obs : List (String × Int)) (st : DedupMap) (k : String)
    (v : Int) (hv : st k = some v) :
    ∀ d ∈ (runObs obs st).2, d.key = k → v < d.startTime := by
  induction obs generalizing st v with
  | nil =>
      intro d hd
      simp [runObs] at hd
  | cons o rest ih =>
      obtain ⟨k', t'⟩ := o
      intro d hd hdk
      simp only [runObs, List.mem_append] at hd
      rcases hd with hd | hd
      · cases hc : (dedupCheck st k' t').2 with
        | none => rw [hc] at hd; cases hd
        | some d0 =>
            rw [hc] at hd
            obtain ⟨hd0, _, hbound⟩ := dedupCheck_dispatch_eq st k' t' d0 hc
            have hdd0 : d = d0 := by
              cases hd with
              | head => rfl
              | tail _ h => cases h
            rw [hdd0, hd0] at hdk ⊢
            simp only at hdk ⊢
            exact hbound v (by rw [hdk]; exact hv)
      · obtain ⟨v1, hv1, hle1⟩ := dedupCheck_mono st k' t' k v hv
        exact lt_of_le_of_lt (by omega : v ≤ v1)
          (lt_of_le_of_lt (le_refl v1) (ih (dedupCheck st k' t').1 v1 hv1 d hd hdk))

theorem runObs_pairwise (obs : List (String × Int)) (st : DedupMap) :
    List.Pairwise DedupOrdered (runObs obs st).2 := by
  induction obs generalizing st with
  | nil => simp [runObs]
  | cons o rest ih =>
      obtain ⟨k', t'⟩ := o
      simp only [runObs]
      rw [List.pairwise_append]
      refine ⟨?_, ih (dedupCheck st k' t').1, ?_⟩
      · cases (dedupCheck st k' t').2 <;> simp
      · intro d1 hd1 d2 hd2
        cases hc : (dedupCheck st k' t').2 with
        | none => rw [hc] at hd1; cases hd1
        | some d0 =>
            rw [hc] at hd1
            have hd10 : d1 = d0 := by
              cases hd1 with
              | head => rfl
              | tail _ h => cases h
            obtain ⟨hd0, hst, _⟩ := dedupCheck_dispatch_eq st k' t' d0 hc
            subst hd10
            subst hd0
            intro hkey
            simp only at hkey ⊢
            exact runObs_lower rest (dedupCheck st k' t').1 k' t' hst d2 hd2
              hkey.symm

/-! ### Supporting lemmas for the formatters -/

theorem formatLines_nil (inC : Bool) :
    formatLines [] inC = if inC then ["```"] else [] := rfl

theorem formatLines_cons (l : String) (ls : List String) (inC : Bool) :
    formatLines (l :: ls) inC =
      if isCommandLine (trimSpace l) then
        if inC then trimSpace l :: formatLines ls true
        else "```bash" :: trimSpace l :: formatLines ls true
      else
        if inC then "```" :: trimSpace l :: formatLines ls false
        else trimSpace l :: formatLines ls false := rfl

theorem formatLines_cmds_append :
    ∀ (ks rest : List String),
      (∀ l ∈ ks, isCommandLine (trimSpace l) = true) →
      formatLines (ks ++ rest) true =
        ks.map trimSpace ++ formatLines rest true
  | [], rest, _ => by simp
  | k :: ks, rest, h => by
      have hk : isCommandLine (trimSpace k) = true := h k (by simp)
      simp only [List.cons_append, formatLines_cons, hk, if_true,
        List.map_cons]
      rw [formatLines_cmds_append ks rest (fun l hl => h l (by simp [hl]))]

theorem trims_sublist :
    ∀ (lines : List String) (inC : Bool),
      List.Sublist (lines.map trimSpace) (formatLines lines inC)
  | [], inC => by cases inC <;> simp [formatLines_nil]
  | l :: ls, inC => by
      rw [List.map_cons, formatLines_cons]
      by_cases h : isCommandLine (trimSpace l) = true
      · rw [if_pos h]
        cases inC
        · exact List.Sublist.cons _
            (List.Sublist.cons₂ _ (trims_sublist ls true))
        · exact List.Sublist.cons₂ _ (trims_sublist ls true)
      · rw [if_neg h]
        cases inC
        · exact List.Sublist.cons₂ _ (trims_sublist ls false)
        · exact List.Sublist.cons _
            (List.Sublist.cons₂ _ (trims_sublist ls false))

theorem filterEvents_go (podName : String) (t : Int) :
    ∀ (items acc : List KEvent),
      items.foldl
        (fun acc e =>
          if e.involvedName = podName ∧ t - 60 < e.lastTimestamp then
            acc ++ [e]
          else acc) acc
      = acc ++ items.filter
          (fun e =>
            decide (e.involvedName = podName ∧ t - 60 < e.lastTimestamp))
  | [], acc => by simp
  | e :: rest, acc => by
      simp only [List.foldl_cons, List.filter_cons]
      by_cases h : e.involvedName = podName ∧ t - 60 < e.lastTimestamp
      · rw [if_pos h, filterEvents_go podName t rest (acc ++ [e])]
        simp [h]
      · rw [if_neg h, filterEvents_go podName t rest acc]
        simp [h]

theorem filterEvents_eq_filter (items : List KEvent) (podName : String)
    (t : Int) :
    filterEvents items podName t =
      items.filter
        (fun e =>
          decide (e.involvedName = podName ∧ t - 60 < e.lastTimestamp)) := by
  rw [filterEvents, filterEvents_go podName t items []]
  simp

/-! ### Claim theorems -/

/-- C5: `truncate s n` returns `s` itself (length unchanged) when
`s.length ≤ n`; otherwise it returns the first `n` characters of `s`
followed by the literal suffix `"... (truncated)"`, so its length is
`n + 15`; the cut is at a raw character position. -/
theorem truncate_spec (s : String) (n : Nat) :
    (s.length ≤ n → truncate s n = s ∧ (truncate s n).length = s.length) ∧
    (n < s.length →
      truncate s n = String.mk (s.data.take n) ++ "... (truncated)" ∧
      (truncate s n).length = n + "... (truncated)".length) := by
  constructor
  · intro h
    simp [truncate, h]
  · intro h
    have h' : ¬ s.length ≤ n := by omega
    refine ⟨by rw [truncate, if_neg h'], ?_⟩
    rw [truncate, if_neg h', String.length_append, String.length_mk,
      List.length_take]
    have hd : s.data.length = s.length := rfl
    omega

/-- Witness for C5: both branches of `truncate_spec` at concrete inputs. -/
theorem truncate_spec_witness :
    (truncate "hello" 7 = "hello" ∧
      (truncate "hello" 7).length = "hello".length) ∧
    (truncate "hello world" 5 =
        String.mk ("hello world".data.take 5) ++ "... (truncated)" ∧
      (truncate "hello world" 5).length = 5 + "... (truncated)".length) :=
  ⟨(truncate_spec "hello" 7).1 (by decide),
   (truncate_spec "hello world" 5).2 (by decide)⟩

/-- C9: an event is selected by the Evidence Collector's filter exactly when
it occurs in the listed events, its involved-object name equals the
incident's workload name, and its last-observed timestamp is strictly after
`startTime − 1 minute`; no upper time bound constrains the selection. -/
theorem correlated_events_spec (items : List KEvent) (podName : String)
    (t : Int) (e : KEvent) :
    e ∈ filterEvents items podName t ↔
      e ∈ items ∧ e.involvedName = podName ∧ t - 60 < e.lastTimestamp := by
  rw [filterEvents_eq_filter, List.mem_filter]
  simp

/-- C3 counterexample: on an undecodable response body, `callOllama` returns
an error rather than the successful fallback string, contradicting the claim
that a body that cannot be decoded yields `"No response from model"`. -/
theorem decode_failure_counterexample :
    handleOllamaBody none = Except.error () ∧
      handleOllamaBody none ≠ Except.ok "No response from model" := by
  refine ⟨rfl, ?_⟩
  intro h
  cases h

/-- C3 amended: if the response body decodes to a JSON object whose
`response` field is absent or not a string, `callOllama` returns the literal
string `"No response from model"` as a successful result; if the body cannot
be decoded at all, the decode error is returned and the incident aborts. -/
theorem ollama_response_fallback (fields : String → Option JValue) :
    ((∀ s, fields "response" ≠ some (JValue.str s)) →
      handleOllamaBody (some fields) = Except.ok "No response from model") ∧
    handleOllamaBody none = Except.error () := by
  refine ⟨?_, rfl⟩
  intro h
  cases hf : fields "response" with
  | none => simp [handleOllamaBody, hf]
  | some v =>
      cases v with
      | str s => exact absurd hf (h s)
      | num n => simp [handleOllamaBody, hf]
      | bool b => simp [handleOllamaBody, hf]
      | null => simp [handleOllamaBody, hf]
      | arr l => simp [handleOllamaBody, hf]
      | obj l => simp [handleOllamaBody, hf]

/-- Witness for C3's amended theorem: a decoded body with no fields yields
the fallback string. -/
theorem ollama_response_fallback_witness :
    handleOllamaBody (some (fun _ => none)) =
      Except.ok "No response from model" :=
  (ollama_response_fallback (fun _ => none)).1 (fun s h => by cases h)

/-- C4 counterexample: after a failed listing the loop body performs no
sleep (`continue` jumps past `time.Sleep`), so the next listing attempt is
not delayed by the poll interval, contrary to the claim; a successful cycle
does sleep for the interval. -/
theorem listing_failure_no_sleep_counterexample :
    (loopIteration emptyDedup (Except.error ())).2.2 ≠ some CHECK_INTERVAL ∧
      (loopIteration emptyDedup (Except.ok [])).2.2 = some CHECK_INTERVAL := by
  refine ⟨?_, rfl⟩
  intro h
  cases h

/-- C4 amended: when the workload-listing call fails, the cycle is skipped —
the dedup state is unchanged and nothing is dispatched — and the loop
immediately retries the listing without sleeping for the poll interval
(unlike a successful cycle, which sleeps for `CHECK_INTERVAL`); the failure
is never fatal: the loop goes on to process the remaining polls. -/
theorem listing_failure_skips_cycle (st : DedupMap) (e : Unit)
    (pods : List Pod) (rest : List (Except Unit (List Pod))) :
    loopIteration st (Except.error e) = (st, [], none) ∧
      runPolls (Except.error e :: rest) st = runPolls rest st ∧
      (loopIteration st (Except.ok pods)).2.2 = some CHECK_INTERVAL := by
  refine ⟨rfl, ?_, rfl⟩
  simp [runPolls, loopIteration]

/-- C1: over any sequence of polls, the dispatches the detector performs are
pairwise ordered: once a dispatch has occurred for dedup key `K` with start
time `T`, every later dispatch for `K` carries a strictly greater observed
start time; in particular no two dispatches share the same `(K, T)` pair, so
two polls observing the same `(K, T)` dispatch at most one task between
them. -/
theorem detector_dispatch_dedup (polls : List (Except Unit (List Pod))) :
    List.Pairwise DedupOrdered (runDetector polls).2 := by
  rw [runDetector, runPolls_eq_runObs]
  exact runObs_pairwise _ _

/-- C2: whenever a poll step dispatches an analysis task for a container
observation, the dispatch carries the pod's dedup key and start time, and the
updated dedup state already maps that key to that start time — the map write
happens in the same synchronous step that spawns the task. -/
theorem dispatch_state_updated_first (st : DedupMap) (p : Pod)
    (cs : ContainerStatus) (d : Dispatch)
    (h : (processContainer st p cs).2 = some d) :
    d.key = podKey p ∧ p.startTime = some d.startTime ∧
      (processContainer st p cs).1 (podKey p) = some d.startTime := by
  by_cases hrc : 0 < cs.restartCount
  · cases hs : p.startTime with
    | none =>
        rw [processContainer, if_pos hrc] at h
        simp only [hs] at h
        cases h
    | some t =>
        rw [processContainer, if_pos hrc] at h
        simp only [hs] at h
        obtain ⟨hd, hst, _⟩ := dedupCheck_dispatch_eq st (podKey p) t d h
        subst hd
        refine ⟨rfl, by simp [hs], ?_⟩
        rw [processContainer, if_pos hrc]
        simp only [hs]
        exact hst
  · rw [processContainer, if_neg hrc] at h
    cases h

/-- Witness for C2: a first observation of pod `ns/app-1` with start time 5
dispatches, and the updated state holds 5 for the key at that moment. -/
theorem dispatch_state_updated_first_witness :
    Dispatch.key ⟨"ns/app-1", 5⟩ = podKey ⟨"ns", "app-1", some 5, [⟨1⟩]⟩ ∧
    Pod.startTime ⟨"ns", "app-1", some 5, [⟨1⟩]⟩ =
      some (Dispatch.startTime ⟨"ns/app-1", 5⟩) ∧
    (processContainer emptyDedup ⟨"ns", "app-1", some 5, [⟨1⟩]⟩ ⟨1⟩).1
      (podKey ⟨"ns", "app-1", some 5, [⟨1⟩]⟩) =
      some (Dispatch.startTime ⟨"ns/app-1", 5⟩) :=
  dispatch_state_updated_first emptyDedup ⟨"ns", "app-1", some 5, [⟨1⟩]⟩ ⟨1⟩
    ⟨"ns/app-1", 5⟩ (by decide)

/-- C6: the code-block formatter wraps a contiguous run of recognized command
lines in one shared fence, closed at the first non-recognized line or at end
of input; on `["kubectl get pods", "kubectl describe pod x", "done"]` it
produces exactly `["```bash", "kubectl get pods", "kubectl describe pod x",
"```", "done"]`. -/
theorem formatCodeBlocks_fence_spec :
    formatLines ["kubectl get pods", "kubectl describe pod x", "done"]
        false =
      ["```bash", "kubectl get pods", "kubectl describe pod x", "```",
       "done"] ∧
    (∀ (k : String) (ks : List String) (d : String),
      (∀ l ∈ k :: ks, isCommandLine (trimSpace l) = true) →
      isCommandLine (trimSpace d) = false →
      formatLines ((k :: ks) ++ [d]) false =
        "```bash" :: (k :: ks).map trimSpace ++ ["```", trimSpace d]) ∧
    (∀ (k : String) (ks : List String),
      (∀ l ∈ k :: ks, isCommandLine (trimSpace l) = true) →
      formatLines (k :: ks) false =
        "```bash" :: (k :: ks).map trimSpace ++ ["```"]) := by
  refine ⟨by decide, ?_, ?_⟩
  · intro k ks d hks hd
    have hk := hks k (List.mem_cons_self k ks)
    have hrest : ∀ l ∈ ks, isCommandLine (trimSpace l) = true :=
      fun l hl => hks l (List.mem_cons_of_mem k hl)
    rw [List.cons_append, formatLines_cons, if_pos hk,
      if_neg Bool.false_ne_true, formatLines_cmds_append ks [d] hrest,
      formatLines_cons, if_neg (by simp [hd]), if_pos rfl]
    simp [formatLines_nil]
  · intro k ks hks
    have hk := hks k (List.mem_cons_self k ks)
    have hrest : ∀ l ∈ ks, isCommandLine (trimSpace l) = true :=
      fun l hl => hks l (List.mem_cons_of_mem k hl)
    have := formatLines_cmds_append ks [] hrest
    rw [List.append_nil] at this
    rw [formatLines_cons, if_pos hk, if_neg Bool.false_ne_true, this]
    simp [formatLines_nil]

/-- Witness for C6: the fence lemmas applied to the concrete runs
`["kubectl get pods"] ++ ["done"]` and `["bash run.sh"]`. -/
theorem formatCodeBlocks_fence_spec_witness :
    formatLines (["kubectl get pods"] ++ ["done"]) false =
      "```bash" :: ["kubectl get pods"].map trimSpace ++
        ["```", trimSpace "done"] ∧
    formatLines ["bash run.sh"] false =
      "```bash" :: ["bash run.sh"].map trimSpace ++ ["```"] :=
  ⟨formatCodeBlocks_fence_spec.2.1 "kubectl get pods" [] "done"
      (by decide) (by decide),
   formatCodeBlocks_fence_spec.2.2 "bash run.sh" [] (by decide)⟩

/-- C10: the code-block formatter emits every input line — recognized or
not, inside or outside a fence — in its whitespace-trimmed form, in input
order; concretely, indentation is stripped from a plain text line as well as
from a command line. -/
theorem formatCodeBlocks_trims_lines :
    (∀ (lines : List String) (inC : Bool),
      List.Sublist (lines.map trimSpace) (formatLines lines inC)) ∧
    formatLines ["  indented line  ", "   kubectl get pods  "] false =
      ["indented line", "```bash", "kubectl get pods", "```"] :=
  ⟨trims_sublist, by decide⟩

/-- C7: when evidence gathering and analysis succeed but the parent publish
fails (the publisher returns the empty reference), the post trace is exactly
the parent payload: none of the three reply blocks — events, logs, analysis —
is posted for that incident, threaded or otherwise. -/
theorem publish_failure_no_thread_replies (env : AnalyzeEnv)
    (podName namespaceName : String) (restartTime : Int) (logs : String)
    (items : List KEvent) (analysis : String)
    (hlogs : env.getLogs = Except.ok logs)
    (hevents : env.listEvents = Except.ok items)
    (hanalysis : callOllamaResult env.ollama = Except.ok analysis)
    (h : env.post (mainPayload podName namespaceName restartTime) = "") :
    analyzePodPosts env podName namespaceName restartTime =
      [mainPayload podName namespaceName restartTime] := by
  simp [analyzePodPosts, hlogs, hevents, hanalysis, h]

/-- Witness for C7: a run whose publisher always fails posts only the
parent payload. -/
theorem publish_failure_no_thread_replies_witness :
    analyzePodPosts
        ⟨Except.ok "L", Except.ok [], some (some (fun _ => none)),
         fun _ => ""⟩ "p" "ns" 0 =
      [mainPayload "p" "ns" 0] :=
  publish_failure_no_thread_replies
    ⟨Except.ok "L", Except.ok [], some (some (fun _ => none)), fun _ => ""⟩
    "p" "ns" 0 "L" [] "No response from model" rfl rfl rfl rfl

/-- C8: when evidence gathering and analysis succeed and the parent publish
returns a non-empty reference `ts`, exactly three threaded replies are posted
after the parent, in order: the events block, the logs block truncated to
1000 characters, and the analysis block truncated to 3000 characters and then
code-block formatted. -/
theorem publish_success_three_blocks (env : AnalyzeEnv)
    (podName namespaceName : String) (restartTime : Int) (logs : String)
    (items : List KEvent) (analysis : String) (ts : String)
    (hlogs : env.getLogs = Except.ok logs)
    (hevents : env.listEvents = Except.ok items)
    (hanalysis : callOllamaResult env.ollama = Except.ok analysis)
    (hts : env.post (mainPayload podName namespaceName restartTime) = ts)
    (hne : ts ≠ "") :
    analyzePodPosts env podName namespaceName restartTime =
      [mainPayload podName namespaceName restartTime,
       threadPayload ts ("📋 *Events:*\n```" ++
         formatEvents (filterEvents items podName restartTime) ++ "```"),
       threadPayload ts ("📦 *Logs:*\n```" ++ truncate logs 1000 ++ "```"),
       threadPayload ts ("🤖 *Analysis:*\n" ++
         formatCodeBlocks (truncate analysis 3000))] := by
  simp [analyzePodPosts, hlogs, hevents, hanalysis, hts, hne]

/-- Witness for C8: a successful run posts the parent and exactly the three
thread blocks in order. -/
theorem publish_success_three_blocks_witness :
    analyzePodPosts
        ⟨Except.ok "log line", Except.ok [],
         some (some (fun k =>
           if k = "response" then some (JValue.str "kubectl get pods")
           else none)),
         fun _ => "123.45"⟩ "p" "ns" 0 =
      [mainPayload "p" "ns" 0,
       threadPayload "123.45" ("📋 *Events:*\n```" ++
         formatEvents (filterEvents [] "p" 0) ++ "```"),
       threadPayload "123.45"
         ("📦 *Logs:*\n```" ++ truncate "log line" 1000 ++ "```"),
       threadPayload "123.45" ("🤖 *Analysis:*\n" ++
         formatCodeBlocks (truncate "kubectl get pods" 3000))] :=
  publish_success_three_blocks
    ⟨Except.ok "log line", Except.ok [],
     some (some (fun k =>
       if k = "response" then some (JValue.str "kubectl get pods")
       else none)),
     fun _ => "123.45"⟩ "p" "ns" 0 "log line" [] "kubectl get pods" "123.45"
    rfl rfl (by simp [callOllamaResult, handleOllamaBody]) rfl (by decide)
